import Mathlib

/-!
Verification of the pygbasm assembler against its specification.

Shallow embedding of the relevant modules:
  * `Conversions`  — gbasm/conversions.py (ExpressionConversion)
  * `Expr2`        — LR35902_gbasm/core/expression.py and constants.py
  * `Storage`      — gbasm/storage.py (StorageParser)
  * `Sect`         — gbasm/section.py (SectionType, SectionParser) and
                     gbasm/assembler/node_processor.py (process_SECTION)
  * `IPtr`         — gbasm/instruction/instruction_pointer.py
  * `Lbl`          — gbasm/label.py (Label, Labels)
  * `Res`          — gbasm/assembler/resolver.py
  * `Enc`          — gbasm/instruction/lexer_parser.py (InstructionParser)
                     and gbasm/instruction/instruction_set.py

Strings are embedded as `List Char`; Python `int` as `Int` where sign
matters and `Nat` where the source only produces non-negative values.
-/

/-- Shorthand to turn a Lean string literal into the `List Char` used by the
embedding. -/
def cs (s : String) : List Char := s.data

/-- Python `str.lstrip(set)`: drop leading characters belonging to `set`. -/
def lstrip (l : List Char) (set : List Char) : List Char :=
  l.dropWhile (fun c => set.contains c)

/-- Python `str.rstrip(set)`: drop trailing characters belonging to `set`. -/
def rstrip (l : List Char) (set : List Char) : List Char :=
  (l.reverse.dropWhile (fun c => set.contains c)).reverse

/-- Python `str.strip(set)`: both-ends strip. -/
def strip (l : List Char) (set : List Char) : List Char :=
  rstrip (lstrip l set) set

/-- Python `str.upper()` on the character list. -/
def upperChars (l : List Char) : List Char := l.map Char.toUpper

/-- Numeric value of one digit character (as accepted by Python `int(s, base)`
after the source's charset validation). -/
def digitVal (c : Char) : Nat :=
  if '0' ≤ c ∧ c ≤ '9' then c.toNat - '0'.toNat
  else if 'a' ≤ c ∧ c ≤ 'f' then c.toNat - 'a'.toNat + 10
  else if 'A' ≤ c ∧ c ≤ 'F' then c.toNat - 'A'.toNat + 10
  else 0

/-- Python `int(val, base)` for an already charset-validated digit string. -/
def intOfChars (base : Nat) (l : List Char) : Nat :=
  l.foldl (fun acc c => acc * base + digitVal c) 0

/-- Left-pad with '0' to the requested width, Python `str.zfill`. -/
def zfill (width : Nat) (l : List Char) : List Char :=
  List.replicate (width - l.length) '0' ++ l

namespace Conversions

/-!  gbasm/conversions.py — class ExpressionConversion.  -/

/-- `ExpressionConversion._validate_expression(exp, key, mini, maxi, chrset)`:
non-empty, first character equals `key`, remainder length within
`[mini, maxi]`, every remaining character (uppercased) in `chrset`. -/
def validate_expression (exp : List Char) (key : Char) (mini maxi : Nat)
    (chrset : List Char) : Bool :=
  match exp with
  | [] => false
  | k :: val =>
    k == key && decide (mini ≤ val.length) && decide (val.length ≤ maxi) &&
      val.all (fun c => chrset.contains c.toUpper)

/-- `ExpressionConversion._hex_to_dec`: `$` prefix, 2–10 hex chars. -/
def hex_to_dec (val : List Char) : Option Nat :=
  if validate_expression val '$' 2 10 (cs "0123456789ABCDEF") then
    some (intOfChars 16 (val.drop 1))
  else none

/-- `ExpressionConversion._dec`: `0` prefix, 1–10 decimal digits. -/
def dec (val : List Char) : Option Nat :=
  if validate_expression val '0' 1 10 (cs "0123456789") then
    some (intOfChars 10 (val.drop 1))
  else none

/-- `ExpressionConversion._bin_to_dec`: `%` prefix, 1–16 binary digits. -/
def bin_to_dec (val : List Char) : Option Nat :=
  if validate_expression val '%' 1 16 (cs "01") then
    some (intOfChars 2 (val.drop 1))
  else none

/-- `ExpressionConversion._oct_to_dec`: `&` prefix, 1–5 octal digits. -/
def oct_to_dec (val : List Char) : Option Nat :=
  if validate_expression val '&' 1 5 (cs "01234567") then
    some (intOfChars 8 (val.drop 1))
  else none

/-- `ExpressionConversion.value_from_expression`: dispatch on the first
character; a string starting with a non-zero digit is re-keyed as decimal by
prepending `0`. -/
def value_from_expression (expression : List Char) : Option Nat :=
  match expression with
  | [] => none
  | c :: _ =>
    let (key, expr) :=
      if c.isDigit ∧ c ≠ '0' then ('0', '0' :: expression)
      else (c, expression)
    if key = '$' then hex_to_dec expr
    else if key = '0' then dec expr
    else if key = '%' then bin_to_dec expr
    else if key = '&' then oct_to_dec expr
    else none

/-- `ExpressionConversion._dec_to_hex(val, digits)`: clamp, render lowercase
hex (`hex(clean)[2:]`, here `Nat.toDigits 16`), `$`-prefix and zero-fill. -/
def dec_to_hex (val : Int) (digits0 : Nat) : List Char :=
  let digits1 := if digits0 = 2 ∨ digits0 = 4 then digits0 else 2
  let clean0 : Int := if val < 0 then 0 else val
  let digits := if clean0 > 255 then 4 else digits1
  let clean1 : Int :=
    if clean0 ≥ (16 : Int) ^ digits then (16 : Int) ^ digits - 1 else clean0
  '$' :: zfill digits (Nat.toDigits 16 clean1.toNat)

/-- `ExpressionConversion._dec_to_hex16`. -/
def dec_to_hex16 (val : Int) : List Char := dec_to_hex val 4

/-- `ExpressionConversion.expression_from_value` restricted to the hex
prefixes used by the assembler paths under verification (`$` and `$$`). -/
def expression_from_value (dec_value : Int) (pre : List Char) : List Char :=
  if pre = cs "$" then dec_to_hex dec_value 2
  else if pre = cs "$$" then dec_to_hex16 dec_value
  else []

end Conversions

namespace Expr2

/-!  LR35902_gbasm/core/constants.py and expression.py.  The identically
buggy `_try_val_range` also appears in LR35902_asm/core/expression.py.  -/

/-- `ValueDescriptor` from constants.py (`MinMax` pairs inlined). -/
structure ValueDescriptor where
  lengthMin : Nat
  lengthMax : Nat
  valueMin : Nat
  valueMax : Nat
  value_base : Nat
  charset : List Char
deriving DecidableEq, Repr

/-- `DEC_DESCR`. -/
def DEC_DESCR : ValueDescriptor := ⟨0, 5, 0, 65535, 10, cs "0123456789"⟩

/-- `HEX_DESCR` (`string.hexdigits`). -/
def HEX_DESCR : ValueDescriptor :=
  ⟨0, 2, 0, 255, 16, cs "0123456789abcdefABCDEF"⟩

/-- `HEX16_DESCR`. -/
def HEX16_DESCR : ValueDescriptor :=
  ⟨0, 4, 0, 65535, 16, cs "0123456789abcdefABCDEF"⟩

/-- `BIN_DESCR`. -/
def BIN_DESCR : ValueDescriptor := ⟨2, 8, 0, 255, 2, cs "01"⟩

/-- `OCT_DESCR` (`string.octdigits`). -/
def OCT_DESCR : ValueDescriptor := ⟨0, 6, 0, 65535, 8, cs "01234567"⟩

/-- `STR_DESCR` (value base 0 marks a character literal). -/
def STR_DESCR : ValueDescriptor :=
  ⟨1, 15, 0, 0, 0, cs "ABCDEFGHIJKLMNOPQRSTUVWXYZ0123456789"⟩

/-- `VALUE_PREFIXES`, in source order (order matters for prefix matching). -/
def VALUE_PREFIXES : List (List Char) :=
  [cs "$$", cs "$", cs "0x", cs "0", cs "\"", cs "'", cs "%", cs "&"]

/-- `ExpressionType`. -/
inductive ExpressionType where
  | BINARY | CHARACTER | DECIMAL | HEXIDECIMAL | INVALID | OCTAL
deriving DecidableEq, Repr

/-- Errors raised by expression.py. -/
inductive ExpErr where
  | syntaxErr   -- ExpressionSyntaxError
  | boundsErr   -- ExpressionBoundsError
deriving DecidableEq, Repr

/-- Outcome of `Expression._process`: the source either raises, returns
`False` (no recognized prefix, expression left INVALID), or succeeds with a
descriptor, a type tag, and the raw digits. -/
inductive ProcOutcome where
  | err (e : ExpErr)
  | invalid
  | ok (descr : ValueDescriptor) (ty : ExpressionType) (raw : List Char)
deriving DecidableEq, Repr

/-- `_try_in_charset`: any character outside the descriptor's charset raises
`ExpressionSyntaxError`. -/
def try_in_charset (raw : List Char) (descr : ValueDescriptor) : Bool :=
  raw.all (fun c => descr.charset.contains c)

/-- `_try_len_range`: `len(raw) ∈ range(min, max+1)`. -/
def try_len_range (raw : List Char) (descr : ValueDescriptor) : Bool :=
  decide (descr.lengthMin ≤ raw.length) && decide (raw.length ≤ descr.lengthMax)

/-- `_try_val_range`: the source condition is the chained comparison
`descr.value_limits.min > num > descr.value_limits.max`, i.e.
`min > num AND num > max`, which raises `ExpressionBoundsError` only when
both hold. -/
def try_val_range (raw : List Char) (descr : ValueDescriptor) : Bool :=
  ¬ (decide (descr.valueMin > intOfChars descr.value_base raw) &&
     decide (intOfChars descr.value_base raw > descr.valueMax))

/-- `Expression._check_exp` (numeric descriptors; string literals keep the
terminator handling of the source, dropping the trailing quote). -/
def check_exp (key : List Char) (descr : ValueDescriptor)
    (expr : List Char) : Except ExpErr (List Char) :=
  -- _try_key_length: expr.startswith(key) (true by construction of the match)
  if ¬ (key.isPrefixOf expr) then .error .syntaxErr
  else
    let raw0 := expr.drop key.length
    if descr.value_base = 0 then
      -- _try_str_term then drop the trailing terminator character
      if ¬ (key.reverse.isPrefixOf expr.reverse) then .error .syntaxErr
      else
        let raw := (expr.drop key.length).dropLast
        if ¬ try_in_charset raw descr then .error .syntaxErr
        else if ¬ try_len_range raw descr then .error .boundsErr
        else .ok raw
    else
      if ¬ try_in_charset raw0 descr then .error .syntaxErr
      else if ¬ try_len_range raw0 descr then .error .boundsErr
      else if ¬ try_val_range raw0 descr then .error .boundsErr
      else .ok raw0

/-- `Expression._process`: prefix selection (first match in
`VALUE_PREFIXES` order), descriptor choice — `$`/`0x` pick `HEX16_DESCR`
only when the whole expression is exactly 5 characters long — and
validation via `_check_exp`. -/
def process (expr : List Char) : ProcOutcome :=
  let found := VALUE_PREFIXES.filter (fun p => p.isPrefixOf expr)
  match found with
  | [] => .invalid
  | key :: _ =>
    let sel : Option (ValueDescriptor × ExpressionType) :=
      if key = cs "$" ∨ key = cs "0x" then
        some (if expr.length = 5 then HEX16_DESCR else HEX_DESCR,
              ExpressionType.HEXIDECIMAL)
      else if key = cs "$$" then some (HEX16_DESCR, .HEXIDECIMAL)
      else if key = cs "0" then some (DEC_DESCR, .DECIMAL)
      else if key = cs "\"" then some (STR_DESCR, .CHARACTER)
      else if key = cs "%" then some (BIN_DESCR, .BINARY)
      else if key = cs "&" then some (OCT_DESCR, .OCTAL)
      else none
    match sel with
    | none => .invalid
    | some (descr, ty) =>
      match check_exp key descr expr with
      | .error e => .err e
      | .ok raw => .ok descr ty raw

/-- `Expression.to_decimal` on a successful parse. -/
def to_decimal (descr : ValueDescriptor) (raw : List Char) : Option Nat :=
  if descr.value_base > 0 then some (intOfChars descr.value_base raw)
  else none

end Expr2

namespace Storage

/-!  gbasm/storage.py — class StorageParser.  -/

/-- Error outcomes of the storage parsing methods.  `defineData` is the
source's `DefineDataError`; `typeErr` and `valueErr` model the uncaught
Python `TypeError` / `ValueError` the source runs into. -/
inductive StorageErr where
  | defineData
  | typeErr
  | valueErr
deriving DecidableEq, Repr

/-- Result of a storage parsing method: the byte buffer or a raised error. -/
inductive StorageResult where
  | ok (data : List Nat)
  | err (e : StorageErr)
deriving DecidableEq, Repr

/-- `StorageParser._to_space(components)`.  The source computes
`valid = (size in range(0, 1024))` and then immediately overwrites it with
`valid = (value in range(0, 256))`, so only the fill value is checked; on
success it appends `size` copies of `value`.  A `None` size reaching
`range(0, size)` raises `TypeError`. -/
def to_space (components : List (List Char)) : StorageResult :=
  let size : Option Nat :=
    match components with
    | c0 :: _ => Conversions.value_from_expression (strip c0 [' '])
    | [] => some 1
  let value : Option Nat :=
    match components with
    | _ :: c1 :: _ => Conversions.value_from_expression (strip c1 [' '])
    | _ => some 0
  -- valid = (size in range(0, 1024))  -- overwritten on the next line
  let valid : Bool := match value with
    | some v => decide (v < 256)
    | none => false
  if valid then
    match size, value with
    | some n, some v => .ok (List.replicate n v)
    | none, _ => .err .typeErr
    | _, none => .err .typeErr
  else .err .defineData

/-- `StorageParser._to_words(data_list)`: for each operand the source checks
`not 65536 > num >= 0` (raising `DefineDataError`), then executes
`self._data.append(num)` on a `bytearray`, which raises `ValueError` for
`num > 255` and otherwise stores the single byte `num`.  A `None` operand
value raises `TypeError` inside the chained comparison. -/
def to_words (data_list : List (List Char)) : StorageResult :=
  match data_list with
  | [] => .ok []
  | item :: rest =>
    match Conversions.value_from_expression (strip item [' ']) with
    | none => .err .typeErr
    | some num =>
      if ¬ (num < 65536) then .err .defineData
      else if num > 255 then .err .valueErr
      else match to_words rest with
        | .ok tail => .ok (num :: tail)
        | .err e => .err e

end Storage

namespace IPtr

/-!  gbasm/instruction/instruction_pointer.py — class InstructionPointer.  -/

/-- The singleton's state: `_pointer` (a.k.a. `location`) and
`_section_base`. -/
structure InstructionPointer where
  pointer : Nat
  section_base : Nat
deriving DecidableEq, Repr

/-- Initial state from `__init__`. -/
def init : InstructionPointer := ⟨0x0000, 0x00⟩

/-- The `location` (and `pointer`) property setter: assign only when
`value in range(0, 65536)`. -/
def location_set (ip : InstructionPointer) (value : Int) : InstructionPointer :=
  if 0 ≤ value ∧ value < 65536 then { ip with pointer := value.toNat } else ip

/-- `move_location_relative(val)`: move by `val` when the result stays in
`[0, 65536)`; the `Bool` mirrors the source's return value. -/
def move_location_relative (ip : InstructionPointer) (val : Int) :
    InstructionPointer × Bool :=
  let newloc : Int := (ip.pointer : Int) + val
  if 0 ≤ newloc ∧ newloc < 65536 then
    ({ ip with pointer := newloc.toNat }, true)
  else (ip, false)

/-- The `base_address` property setter: the new value is an expression
string; when it fails to convert nothing is stored, otherwise both
`_section_base` and `_pointer` are set to the converted address. -/
def base_address_set (ip : InstructionPointer) (new_value : List Char) :
    InstructionPointer :=
  match Conversions.value_from_expression new_value with
  | none => ip
  | some address => ⟨address, address⟩

/-- One instruction-pointer operation, as enumerated by the claim: setting
the base address (on a SECTION), setting the location, a relative move. -/
inductive IPOp where
  | setBase (s : List Char)
  | setLocation (v : Int)
  | moveLocRel (d : Int)

/-- Apply one operation. -/
def step (ip : InstructionPointer) (op : IPOp) : InstructionPointer :=
  match op with
  | .setBase s => base_address_set ip s
  | .setLocation v => location_set ip v
  | .moveLocRel d => (move_location_relative ip d).1

/-- Apply a sequence of operations. -/
def run (ip : InstructionPointer) (ops : List IPOp) : InstructionPointer :=
  ops.foldl step ip

end IPtr

namespace Sect

/-!  gbasm/section.py — SectionType / SectionParser, and
gbasm/assembler/node_processor.py — NodeProcessor.process_SECTION.  -/

/-- `SectionType._sections`, in source order: kind name ↦ (start, end). -/
def sections : List (List Char × Nat × Nat) :=
  [(cs "WRAM0", 0xC000, 0xCFFF),
   (cs "VRAM",  0x8000, 0x9FFF),
   (cs "ROMX",  0x4000, 0x7FFF),
   (cs "ROM0",  0x0000, 0x3FFF),
   (cs "HRAM",  0xFF80, 0xFFFE),
   (cs "WRAMX", 0xD000, 0xDFFF),
   (cs "SRAM",  0xA000, 0xBFFF),
   (cs "OAM",   0xFE00, 0xFE9F)]

/-- `SectionType.sectiontype_info`. -/
def sectiontype_info (sectiontype : List Char) : Option (Nat × Nat) :=
  (sections.find? (fun p => p.1 == sectiontype)).map Prod.snd

/-- `SectionParser._compute_address(section_info)`: takes the FIRST
symbol/param pair and returns the kind's default range from the table; the
`param` component (the `KIND[expr]` start override) is never read. -/
def compute_address (section_info : List (List Char × List Char)) :
    Option (Nat × Nat) :=
  match section_info with
  | [] => none   -- raises SectionDeclarationError("No section data.")
  | sym :: _ => sectiontype_info sym.1

/-- `NodeProcessor.process_SECTION` effect on the instruction pointer for a
declaration `SECTION "name", KIND[param]`: the section's address range is
computed by `compute_address`, its start is rendered with the `$$` prefix
(`expression_from_value(num_addr, "$$")`), and assigned to
`IP().base_address`. -/
def process_SECTION (kind param : List Char) (ip : IPtr.InstructionPointer) :
    Option IPtr.InstructionPointer :=
  match compute_address [(kind, param)] with
  | none => none
  | some (num_addr, _) =>
    some (IPtr.base_address_set ip
      (Conversions.expression_from_value (num_addr : Int) (cs "$$")))

end Sect

namespace Lbl

/-!  gbasm/label.py — classes Label and Labels.  -/

/-- `Labels.valid_chars` = `string.ascii_letters + string.digits + ".:_"`. -/
def valid_chars : List Char :=
  cs "abcdefghijklmnopqrstuvwxyzABCDEFGHIJKLMNOPQRSTUVWXYZ0123456789.:_"

/-- `Labels.first_chars` / `valid_label_first_char()` =
`string.ascii_letters + "."`. -/
def first_chars : List Char :=
  cs "abcdefghijklmnopqrstuvwxyzABCDEFGHIJKLMNOPQRSTUVWXYZ."

/-- `name_valid_label_chars(line)`. -/
def name_valid_label_chars (line : List Char) : Bool :=
  line.all (fun c => valid_chars.contains c)

/-- A stored label: original name and 16-bit value (the fields of `Label`
relevant to table membership). -/
structure Label where
  name : List Char
  value : Nat
deriving DecidableEq, Repr

/-- `Label._clean_label` = `(name.lstrip(".")).rstrip(":. ")`. -/
def clean_label (name : List Char) : List Char :=
  rstrip (lstrip name ['.']) [':', '.', ' ']

/-- The key under which `Labels.add` stores a label:
`label.clean_name().upper()`. -/
def add_key (name : List Char) : List Char := upperChars (clean_label name)

/-- The key `Labels.__getitem__` computes from its argument: when non-empty,
`(key.lstrip(".")).rstrip(":.")` uppercased — note the rstrip set here lacks
the space of `clean_label`. -/
def getitem_key (key : List Char) : List Char :=
  if key ≠ [] then upperChars (rstrip (lstrip key ['.']) [':', '.'])
  else key

/-- The `Labels._labels` dictionary as an association list; the most recent
binding for a key is found first. -/
def Table := List (List Char × Label)

/-- `Labels.add(label)`. -/
def add (tbl : Table) (label : Label) : Table :=
  (add_key label.name, label) :: tbl

/-- Association-list lookup (Python dict access by exact key). -/
def assoc : Table → List Char → Option Label
  | [], _ => none
  | (k, v) :: rest, q => if k = q then some v else assoc rest q

/-- `Labels.__getitem__(key)`. -/
def getitem (tbl : Table) (key : List Char) : Option Label :=
  assoc tbl (getitem_key key)

end Lbl

namespace Res

/-!  gbasm/assembler/resolver.py — module-level helper functions.  -/

/-- `ones_comp(val, bits=8)`: for negative input,
`operator.xor(abs(val), (2**bits)-1)`. -/
def ones_comp (val : Int) (bits : Nat) : Int :=
  if val < 0 then ((Nat.xor val.natAbs (2 ^ bits - 1) : Nat) : Int) else val

/-- `twos_comp(val, bits=8)`: for negative input, `abs(ones_comp(val)) + 1`. -/
def twos_comp (val : Int) (bits : Nat) : Int :=
  if val < 0 then ((ones_comp val bits).natAbs : Int) + 1 else val

/-- `compute_relative(curr, base)`: note both branches produce a value ≤ 0
(`base - curr` when `curr > base`, else `curr - base`); values outside
`[-128, 127]` yield `None`; negative values are passed through
`twos_comp`. -/
def compute_relative (curr base : Int) : Option Int :=
  let rel : Int := if curr > base then base - curr else curr - base
  if rel < -128 ∨ rel > 127 then none
  else if rel < 0 then some (twos_comp rel 8) else some rel

/-- The displacement byte `op_jr` computes for a conditional `JR cc, label`
(the `operand2_error` branch): `compute_relative(IP().location,
label.value())` followed by the source's sign-dependent size adjustment
`if rel > 0x80: rel -= 2 else: rel += 2`. -/
def op_jr_cc_displacement (curr target : Int) : Option Int :=
  (compute_relative curr target).map
    (fun rel => if rel > 0x80 then rel - 2 else rel + 2)

/-- The displacement byte the claim specifies: the signed two's-complement
byte of `target − (addr + 2)`, rejected outside `[-128, 127]`. -/
def claim_jr_displacement (target addr : Int) : Option Int :=
  let d : Int := target - (addr + 2)
  if d < -128 ∨ d > 127 then none else some (d % 256)

end Res

namespace Enc

/-!  gbasm/instruction/instruction_set.py (nested decision maps) and
gbasm/instruction/lexer_parser.py (InstructionParser / _State).  -/

/-- A node of the nested decision map: the optional `"!"` leaf value and the
sub-map keyed by operand text, in insertion order. -/
inductive ITree where
  | node (bang : Option Nat) (kids : List (List Char × ITree))

/-- The `"!"` entry of a map node. -/
def ITree.bang : ITree → Option Nat
  | .node b _ => b

/-- The operand-keyed entries of a map node. -/
def ITree.kids : ITree → List (List Char × ITree)
  | .node _ k => k

/-- Leaf `{"!": n}`. -/
def lf (n : Nat) : ITree := .node (some n) []

/-- Interior node without a `"!"` entry. -/
def nd (kids : List (List Char × ITree)) : ITree := .node none kids

/-- Python dict key lookup over the association list. -/
def lookupKid : List (List Char × ITree) → List Char → Option ITree
  | [], _ => none
  | (k, v) :: rest, q => if k = q then some v else lookupKid rest q

/-- Python dict assignment `d[k] = v`: replace in place when the key exists,
append otherwise. -/
def setk (d : List (List Char × ITree)) (k : List Char) (v : ITree) :
    List (List Char × ITree) :=
  if (lookupKid d k).isSome then d.map (fun p => if p.1 = k then (k, v) else p)
  else d ++ [(k, v)]

/-- Python `{**target, **source}` on the key lists (shallow update). -/
def dictMerge (t s : List (List Char × ITree)) : List (List Char × ITree) :=
  t.map (fun p => match lookupKid s p.1 with | some v => (p.1, v) | none => p)
    ++ s.filter (fun p => (lookupKid t p.1).isNone)

/-- `InstructionSet._merge(target, source)` = `{**target, **source}`, with
the `"!"` entry treated as an ordinary key. -/
def merge (target source : ITree) : ITree :=
  .node (match source.bang with | some b => some b | none => target.bang)
    (dictMerge target.kids source.kids)

/-- Modelled from the spec: the `Registers` class is absent from the source
tree (only its callers are present).  `working_registers()` is the operand
order of the `LD r,r'` block (opcodes 0x40–0x7F) and of the CB-prefixed
block given in §3/§4.9 of the spec: B, C, D, E, H, L, (HL), A. -/
def working_registers : List (List Char) :=
  [cs "B", cs "C", cs "D", cs "E", cs "H", cs "L", cs "(HL)", cs "A"]

/-- Modelled from the spec (§3, Register): the full register membership used
by `Registers().is_valid_register`. -/
def valid_registers : List (List Char) :=
  [cs "A", cs "B", cs "C", cs "D", cs "E", cs "H", cs "L",
   cs "BC", cs "DE", cs "HL", cs "SP", cs "AF", cs "PC",
   cs "(HL)", cs "(HL+)", cs "(HL-)", cs "(BC)", cs "(DE)", cs "(C)"]

/-- `Registers().is_valid_register` (modelled from the spec, see above). -/
def is_valid_register (s : List Char) : Bool :=
  valid_registers.any (fun r => r == s)

/-- The literal `"LD"` entry of `InstructionSet._instructions` before the
builder passes (instruction_set.py lines 88–113). -/
def LD_base : ITree :=
  nd [(cs "BC", nd [(cs "d16", lf 0x01)]),
      (cs "DE", nd [(cs "d16", lf 0x11)]),
      (cs "HL", nd [(cs "d16", lf 0x21), (cs "SP+r8", lf 0xf8)]),
      (cs "SP", nd [(cs "d16", lf 0x31)]),
      (cs "(BC)", nd [(cs "A", lf 0x02)]),
      (cs "(DE)", nd [(cs "A", lf 0x12)]),
      (cs "(HL+)", nd [(cs "A", lf 0x22)]),
      (cs "(HL-)", nd [(cs "A", lf 0x32)]),
      (cs "B", nd [(cs "d8", lf 0x06)]),
      (cs "D", nd [(cs "d8", lf 0x16)]),
      (cs "H", nd [(cs "d8", lf 0x26)]),
      (cs "(HL)", nd [(cs "d8", lf 0x36)]),
      (cs "(C)", nd [(cs "A", lf 0xe2)]),
      (cs "(a16)", nd [(cs "SP", lf 0x08), (cs "A", lf 0xea)]),
      (cs "A", nd [(cs "(C)", lf 0xf2), (cs "(BC)", lf 0x0a),
                   (cs "(DE)", lf 0x1a), (cs "(HL+)", lf 0x2a),
                   (cs "(HL-)", lf 0x3a), (cs "d8", lf 0x3e),
                   (cs "(a16)", lf 0xfa)]),
      (cs "C", nd [(cs "d8", lf 0x0e)]),
      (cs "E", nd [(cs "d8", lf 0x1e)]),
      (cs "L", nd [(cs "d8", lf 0x2e)])]

/-- The literal `"JR"` entry of `InstructionSet._instructions`. -/
def JR_tree : ITree :=
  nd [(cs "r8", lf 0x18),
      (cs "NZ", nd [(cs "r8", lf 0x20)]),
      (cs "Z", nd [(cs "r8", lf 0x28)]),
      (cs "NC", nd [(cs "r8", lf 0x30)]),
      (cs "C", nd [(cs "r8", lf 0x38)])]

/-- `InstructionSet._build_LD_REG_instructions`: starting at 0x40, for each
`to_reg` then `from_reg` in working-register order insert
`{"!": start+index}`, skipping the `(HL),(HL)` slot (its index is still
consumed, leaving 0x76 to HALT). -/
def build_LD_REG (existing : ITree) : ITree :=
  let start := 0x40
  (working_registers.foldl
    (fun (acc : ITree × Nat) to_reg =>
      let ex := acc.1
      let tr0 : ITree := (lookupKid ex.kids to_reg).getD (nd [])
      let inner := working_registers.foldl
        (fun (a : ITree × Nat) from_reg =>
          let t := a.1
          let address := start + a.2
          let idx := a.2 + 1
          if to_reg = cs "(HL)" ∧ from_reg = cs "(HL)" then (t, idx)
          else
            let fr := lf address
            let newv := match lookupKid t.kids from_reg with
              | none => fr
              | some old => merge old fr
            (ITree.node t.bang (setk t.kids from_reg newv), idx))
        (tr0, acc.2)
      (ITree.node ex.bang (setk ex.kids to_reg inner.1), inner.2))
    (existing, 0)).1

/-- The assembled `"LD"` decision map (`instruction_from_mnemonic("LD")`). -/
def LD_tree : ITree := build_LD_REG LD_base

/-- `InstructionSet._build_CB_instructions`: starting at 0xCB00 with one
running index, first the rotate/shift family over the working registers,
then BIT/RES/SET over bit digits 0–7 and the working registers. -/
def build_CB : List (List Char × ITree) :=
  let start := 0xCB00
  let rotOps := [cs "RLC", cs "RRC", cs "RL", cs "RR",
                 cs "SLA", cs "SRA", cs "SWAP", cs "SRL"]
  let rots := rotOps.foldl
    (fun (acc : List (List Char × ITree) × Nat) mn =>
      let inner := working_registers.foldl
        (fun (a : List (List Char × ITree) × Nat) reg =>
          (a.1 ++ [(reg, lf (start + a.2))], a.2 + 1))
        ([], acc.2)
      (acc.1 ++ [(mn, nd inner.1)], inner.2))
    ([], 0)
  let brs := [cs "BIT", cs "RES", cs "SET"].foldl
    (fun (acc : List (List Char × ITree) × Nat) mn =>
      let top := (List.range 8).foldl
        (fun (a : List (List Char × ITree) × Nat) bit =>
          let op := working_registers.foldl
            (fun (b : List (List Char × ITree) × Nat) reg =>
              (b.1 ++ [(reg, lf (start + b.2))], b.2 + 1))
            ([], a.2)
          (a.1 ++ [(cs (toString bit), nd op.1)], op.2))
        ([], acc.2)
      (acc.1 ++ [(mn, nd top.1)], top.2))
    ([], rots.2)
  rots.1 ++ brs.1

/-- The `"RLC"` decision map produced by `_build_CB_instructions`. -/
def RLC_tree : ITree := (lookupKid build_CB (cs "RLC")).getD (nd [])

/-- Substring test: Python `hay.find(needle) != -1` / `needle in hay`. -/
def hasSub (hay needle : List Char) : Bool :=
  needle.isPrefixOf hay ||
    (match hay with
     | [] => false
     | _ :: t => hasSub t needle)

/-- Python `s.split(sep)` for a one-character separator. -/
def splitOnChar (sep : Char) : List Char → List (List Char)
  | [] => [[]]
  | c :: t =>
    let r := splitOnChar sep t
    if c = sep then [] :: r
    else
      match r with
      | h :: t2 => (c :: h) :: t2
      | [] => [[c]]

/-- `_State.is_arg_inside_parens`: starts with `(` and ends with `)`. -/
def inside_parens (arg : List Char) : Bool :=
  match arg.head?, arg.getLast? with
  | some '(', some ')' => true
  | _, _ => false

/-- `InstructionParser._is_within_parens`: strip whitespace, then the same
bracket test. -/
def is_within_parens (value : List Char) : Bool :=
  inside_parens (strip value [' '])

/-- `InstructionParser.plus_split(clean)`: `None` when the text contains
`(HL+)`/`(HL-)`; otherwise a two-way split on `+` when it has exactly two
parts. -/
def plus_split (clean : List Char) : Option (List Char × List Char) :=
  if hasSub clean (cs "(HL+)") ∨ hasSub clean (cs "(HL-)") then none
  else if clean.contains '+' then
    match splitOnChar '+' clean with
    | [a, b] => some (a, b)
    | _ => none
  else none

/-- `InstructionParser._int_to_z80binary(dec_val, little_endian, bits)`:
values outside `[0, 65535]` give `None`; `"%04x"` rendering makes the low
byte `dec_val % 256` and the high byte `dec_val / 256`; the high byte is
appended only when `bits == 16`; `(hi, lo)` order when not little-endian. -/
def int_to_z80binary (dec_val : Int) (little_endian : Bool) (bits : Nat) :
    Option (List Nat) :=
  if dec_val < 0 ∨ dec_val > 65535 then none
  else
    let v := dec_val.toNat
    let ba := if bits = 16 then [v % 256, v / 256] else [v % 256]
    some (if ¬ little_endian ∧ ba.length = 2 then ba.reverse else ba)

/-- `InstructionParser._ph_in_list(ph_list, bits="8", parens)` — the caller
never passes `bits`, so the 8-bit substring scan always runs first, then the
16-bit scan, and finally the placeholder-name check. -/
def ph_in_list (ph_list : List (List Char)) (parens : Bool) :
    Option (List Char) :=
  let eight := if parens then cs "8)" else cs "8"
  let sixteen := if parens then cs "16)" else cs "16"
  let ph_key :=
    match ph_list.find? (fun k => hasSub k eight) with
    | some k => some k
    | none => ph_list.find? (fun k => hasSub k sixteen)
  match ph_key with
  | none => none
  | some k =>
    let regs8 := [cs "r8", cs "a8", cs "d8", cs "SP+r8"]
    let regs16 := [cs "a16", cs "d16"]
    if regs8.any (fun r => hasSub k r) || regs16.any (fun r => hasSub k r)
    then some k
    else none

/-- The `_State` fields that determine the encoding: the roamer, the byte
buffer, whether an `operandN_error` was recorded, and the `unresolved`
candidate label. -/
structure PState where
  roamer : ITree
  ins_bytes : List Nat
  errored : Bool
  unresolved : Option (List Char)

/-- `_State.set_operand_to_val(val, err)` with an error: records the error
and clears the roamer (`self.roamer = {}`). -/
def set_operand_err (st : PState) : PState :=
  { st with errored := true, roamer := nd [] }

/-- `_State.append_bytes`: appending `None` (or an empty array) is a
no-op. -/
def append_bytes (st : PState) (new_bytes : Option (List Nat)) : PState :=
  match new_bytes with
  | some l => { st with ins_bytes := st.ins_bytes ++ l }
  | none => st

/-- `InstructionParser._if_number(arg)`: strip parens (recording
parenthesization), try the `SP+` split, convert via
`value_from_expression`; the source gates the numeric path with
`if dec_val:`, so a parsed value of `0` falls into the
`OPERAND_IS_NOT_NUMERIC` error branch exactly like a failed parse.  On the
numeric path the operand bytes are appended before the parenthesization and
roamer-membership checks. -/
def if_number (st : PState) (arg : List Char) : Bool × PState :=
  let arg_parens := inside_parens arg
  let arg0 := if arg_parens then strip arg ['(', ')'] else arg
  let arg1 :=
    match plus_split arg0 with
    | some (a, b) => if a = cs "SP" then b else arg0
    | none => arg0
  match Conversions.value_from_expression arg1 with
  | some dec_val =>
    if dec_val ≠ 0 then
      match ph_in_list (st.roamer.kids.map Prod.fst) arg_parens with
      | some placeholder =>
        let bits := if hasSub placeholder (cs "8") then 8 else 16
        let st1 := append_bytes st (int_to_z80binary (dec_val : Int) true bits)
        if arg_parens ≠ is_within_parens placeholder then (false, st1)
        else
          match lookupKid st1.roamer.kids placeholder with
          | some sub => (true, { st1 with roamer := sub })
          | none => (false, st1)
      | none => (false, st)
    else (false, set_operand_err st)
  | none => (false, set_operand_err st)

/-- The operand loop of `InstructionParser._parse`: registers first (an
out-of-place register breaks the loop with an error), then verbatim keys,
then `_if_number`, then the candidate-label bookkeeping. -/
def parse_operands (st : PState) : List (List Char) → PState
  | [] => st
  | arg :: rest =>
    if is_valid_register arg then
      match lookupKid st.roamer.kids arg with
      | some sub => parse_operands { st with roamer := sub } rest
      | none => set_operand_err st
    else
      match lookupKid st.roamer.kids arg with
      | some sub => parse_operands { st with roamer := sub } rest
      | none =>
        let r := if_number st arg
        if r.1 then parse_operands r.2 rest
        else
          let tmp := strip arg ['(', ')']
          let st2 :=
            match tmp with
            | t0 :: _ =>
              if Lbl.first_chars.contains t0 ∧ Lbl.name_valid_label_chars tmp
              then { r.2 with unresolved := some tmp }
              else r.2
            | [] => r.2
          parse_operands st2 rest

/-- The observable outcome of `InstructionParser._parse`: the `"bytes"`
value when the roamer reached a `"!"` leaf, and whether an operand error was
recorded.  The instruction-detail record the bytes are merged into comes
from the CPU database JSON, which is absent from the source tree; it is
modelled from the spec (§6) as defined for every opcode, so a reached leaf
always yields its byte string. -/
structure ParseResult where
  bytes : Option (List Nat)
  errored : Bool
deriving DecidableEq, Repr

/-- `InstructionParser._parse` for a known mnemonic whose decision map is
`tree`: run the operand loop; when `"!"` is reached, the opcode value is
rendered with `_int_to_z80binary(dec_val)` — `bits` DEFAULTS TO 8 — and
prepended byte-by-byte (`insert(0, b)` reverses the rendered chunk). -/
def parse (tree : ITree) (operands : List (List Char)) : ParseResult :=
  let st := parse_operands ⟨tree, [], false, none⟩ operands
  match st.roamer.bang with
  | some dec_val =>
    ⟨some (((int_to_z80binary (dec_val : Int) true 8).getD []).reverse
        ++ st.ins_bytes), st.errored⟩
  | none => ⟨none, st.errored⟩

end Enc

/-!  Helper lemmas shared by the theorems below.  -/

/-- Membership is preserved from `dropWhile` back to the original list. -/
theorem mem_of_mem_dropWhile {p : Char → Bool} {a : Char} :
    ∀ {l : List Char}, a ∈ l.dropWhile p → a ∈ l
  | [], h => by simp at h
  | c :: t, h => by
    by_cases hc : p c
    · simp only [List.dropWhile, hc] at h
      exact List.mem_cons_of_mem _ (mem_of_mem_dropWhile h)
    · simpa [List.dropWhile, hc] using h

/-- On a list without spaces, dropping leading `:`/`.`/space characters is
the same as dropping leading `:`/`.` characters. -/
theorem dropWhile_no_space_eq (l : List Char) (h : ∀ c ∈ l, c ≠ ' ') :
    l.dropWhile (fun c => ([':', '.', ' '] : List Char).contains c)
      = l.dropWhile (fun c => ([':', '.'] : List Char).contains c) := by
  induction l with
  | nil => rfl
  | cons c t ih =>
    have hc : c ≠ ' ' := h c (List.mem_cons_self _ _)
    have hrest : ∀ x ∈ t, x ≠ ' ' := fun x hx => h x (List.mem_cons_of_mem _ hx)
    have hcs : (([':', '.', ' '] : List Char).contains c)
        = (([':', '.'] : List Char).contains c) := by
      have hsp : decide (c = ' ') = false := by simp [hc]
      simp [List.contains, hsp]
    simp only [List.dropWhile, hcs]
    cases hb : (([':', '.'] : List Char).contains c) with
    | true => exact ih hrest
    | false => rfl

/-- On a list without spaces, `rstrip ":. "` agrees with `rstrip ":."`. -/
theorem rstrip_no_space (l : List Char) (h : ∀ c ∈ l, c ≠ ' ') :
    rstrip l [':', '.', ' '] = rstrip l [':', '.'] := by
  unfold rstrip
  rw [dropWhile_no_space_eq]
  intro c hc
  exact h c (List.mem_reverse.mp hc)

/-- Claim C1.  For a conditional `JR` resolved to a label whose address
equals the instruction's own address (`T = A = $4000`), the resolver's
displacement pipeline (`compute_relative` followed by `op_jr`'s
sign-dependent `±2` adjustment) produces the value `2`, which is rendered
as `$02` and re-encoded to the bytes `20 02` — whereas the claimed rule
`signed(d) = T − (A + 2)` demands the byte `0xFE` (254).  The code therefore
does not implement the claimed displacement. -/
theorem jr_resolver_self_jump_emits_wrong_byte :
    Res.op_jr_cc_displacement 0x4000 0x4000 = some 2 ∧
    Conversions.expression_from_value 2 (cs "$") = cs "$02" ∧
    Enc.parse Enc.JR_tree [cs "NZ", cs "$02"] = ⟨some [0x20, 0x02], false⟩ ∧
    Res.claim_jr_displacement 0x4000 0x4000 = some 254 ∧
    (2 : Int) ≠ 254 := by
  decide

/-- Claim C2.  `RLC B` has table value `0xCB00` (≥ 0x100), yet the encoder
emits only the byte `0x00`: `_parse` renders the opcode with
`_int_to_z80binary(dec_val)` whose `bits` parameter defaults to 8, so the
`0xCB` prefix byte is dropped and the produced byte sequence is `[0x00]`,
not the claimed `[0xCB, 0x00]`. -/
theorem cb_family_prefix_byte_dropped :
    (Enc.lookupKid Enc.RLC_tree.kids (cs "B")).map Enc.ITree.bang
      = some (some 0xCB00) ∧
    Enc.parse Enc.RLC_tree [cs "B"] = ⟨some [0x00], false⟩ ∧
    (some [0x00] : Option (List Nat)) ≠ some [0xCB, 0x00] := by
  decide

/-- Claim C3.  The octal expression `&777777` has a valid prefix, charset
and length (6 characters ≤ the descriptor's 6), and its value 262143
exceeds the descriptor's value bound 65535 — yet construction SUCCEEDS:
`_try_val_range`'s chained comparison `min > num > max` (with `min = 0`)
can never hold, so the value-range `BoundsError` is unreachable. -/
theorem octal_value_overflow_not_rejected :
    Expr2.process (cs "&777777")
      = .ok Expr2.OCT_DESCR Expr2.ExpressionType.OCTAL (cs "777777") ∧
    Expr2.to_decimal Expr2.OCT_DESCR (cs "777777") = some 262143 ∧
    Expr2.OCT_DESCR.valueMax = 65535 ∧ 262143 > 65535 := by
  decide

/-- Claim C4.  `DS 1024, $FF` succeeds with 1024 bytes of `0xFF`, as
claimed; but `DS 1025` ALSO succeeds (emitting 1025 zero bytes) instead of
failing with the storage-define error: in `_to_space` the size check
`valid = (size in range(0, 1024))` is immediately overwritten by
`valid = (value in range(0, 256))`, so the count bound is never enforced. -/
theorem ds_count_above_limit_accepted :
    Storage.to_space [cs "1024", cs "$FF"] = .ok (List.replicate 1024 255) ∧
    Storage.to_space [cs "1025"] = .ok (List.replicate 1025 0) := by
  set_option maxRecDepth 4000 in decide

/-- Claim C5.  `_to_words` never packs operands into two little-endian
bytes: it executes `bytearray.append(num)` on the raw 16-bit value, so
`DW $1234` raises `ValueError` (value 4660 > 255) and `DW $0012` stores a
single byte `0x12` — one byte per operand, not the claimed two. -/
theorem dw_operands_not_packed_little_endian :
    Storage.to_words [cs "$1234"] = .err .valueErr ∧
    Storage.to_words [cs "$0012"] = .ok [18] ∧
    ([18] : List Nat).length ≠ 2 := by
  decide

/-- Claim C6 counterexample.  `SECTION "x", WRAM0[$C100]` carries the
in-range override `$C100`, yet processing the section sets the instruction
pointer's base_address and location to WRAM0's default start `$C000`, not
to `$C100`: `_compute_address` never reads the bracketed parameter. -/
theorem section_start_override_ignored_cex :
    Sect.process_SECTION (cs "WRAM0") (cs "$C100") IPtr.init
      = some ⟨0xC000, 0xC000⟩ ∧
    (0xC000 : Nat) ≠ 0xC100 ∧
    Sect.sectiontype_info (cs "WRAM0") = some (0xC000, 0xCFFF) ∧
    0xC000 ≤ 0xC100 ∧ 0xC100 ≤ 0xCFFF := by
  decide

/-- Claim C6 (amended).  For every section kind in the table and ANY
bracketed override parameter, processing the section sets the instruction
pointer's base_address and location to the kind's default range start; the
override value is parsed into the section's arguments but ignored. -/
theorem section_sets_ip_to_kind_default_start (kind : List Char) (s e : Nat)
    (h : (kind, s, e) ∈ Sect.sections) (param : List Char)
    (ip : IPtr.InstructionPointer) :
    Sect.process_SECTION kind param ip = some ⟨s, s⟩ := by
  fin_cases h <;> rfl

/-- Witness for `section_sets_ip_to_kind_default_start`. -/
theorem section_sets_ip_to_kind_default_start_witness :
    Sect.process_SECTION (cs "WRAM0") (cs "$C100") IPtr.init
      = some ⟨0xC000, 0xC000⟩ :=
  section_sets_ip_to_kind_default_start (cs "WRAM0") 0xC000 0xCFFF (by decide)
    (cs "$C100") IPtr.init

/-- Claim C7 counterexample.  Setting the base address to `$C000` (as a
WRAM0 SECTION does) and then moving the location by −1 is accepted by
`move_location_relative` and leaves `location = $BFFF < base_address =
$C000`: the claimed invariant `base_address ≤ location` is not maintained
by the instruction-pointer operations. -/
theorem ip_location_can_fall_below_base_cex :
    IPtr.run IPtr.init
        [IPtr.IPOp.setBase (cs "$C000"), IPtr.IPOp.moveLocRel (-1)]
      = ⟨0xBFFF, 0xC000⟩ ∧
    ¬ ((0xC000 : Nat) ≤ 0xBFFF) := by
  decide

/-- Claim C7 (amended).  After any sequence of instruction-pointer
operations (setting the base address, setting the location, relative moves)
starting from a state within bounds, `location ≤ 0xFFFF` and
`base_address ≤ 0xFFFF` continue to hold, provided every base-address
expression that converts does so to a value ≤ 0xFFFF; the stronger claimed
invariant `base_address ≤ location` is not preserved (see the
counterexample). -/
theorem ip_location_bounded_by_ffff (ops : List IPtr.IPOp)
    (ip0 : IPtr.InstructionPointer)
    (h0 : ip0.pointer ≤ 65535) (h0b : ip0.section_base ≤ 65535)
    (hops : ∀ op ∈ ops, ∀ s, op = IPtr.IPOp.setBase s →
      ∀ v, Conversions.value_from_expression s = some v → v ≤ 65535) :
    (IPtr.run ip0 ops).pointer ≤ 65535 ∧
      (IPtr.run ip0 ops).section_base ≤ 65535 := by
  induction ops generalizing ip0 with
  | nil => exact ⟨h0, h0b⟩
  | cons op rest ih =>
    have hstep : (IPtr.step ip0 op).pointer ≤ 65535 ∧
        (IPtr.step ip0 op).section_base ≤ 65535 := by
      cases op with
      | setBase s =>
        simp only [IPtr.step, IPtr.base_address_set]
        cases hv : Conversions.value_from_expression s with
        | none => exact ⟨h0, h0b⟩
        | some a =>
          have ha := hops _ (List.mem_cons_self _ _) s rfl a hv
          exact ⟨ha, ha⟩
      | setLocation v =>
        simp only [IPtr.step, IPtr.location_set]
        split
        · next hc =>
          refine ⟨?_, h0b⟩
          show v.toNat ≤ 65535
          omega
        · exact ⟨h0, h0b⟩
      | moveLocRel d =>
        simp only [IPtr.step, IPtr.move_location_relative]
        split
        · next hc =>
          refine ⟨?_, h0b⟩
          show ((ip0.pointer : Int) + d).toNat ≤ 65535
          omega
        · exact ⟨h0, h0b⟩
    exact ih (IPtr.step ip0 op) hstep.1 hstep.2
      (fun op2 hmem => hops op2 (List.mem_cons_of_mem _ hmem))

/-- Witness for `ip_location_bounded_by_ffff`. -/
theorem ip_location_bounded_by_ffff_witness :
    (IPtr.run IPtr.init [IPtr.IPOp.setBase (cs "$C000"),
        IPtr.IPOp.moveLocRel (-1), IPtr.IPOp.setLocation 16]).pointer
      ≤ 65535 ∧
    (IPtr.run IPtr.init [IPtr.IPOp.setBase (cs "$C000"),
        IPtr.IPOp.moveLocRel (-1), IPtr.IPOp.setLocation 16]).section_base
      ≤ 65535 := by
  refine ip_location_bounded_by_ffff _ _ (by decide) (by decide) ?_
  intro op hmem s heq v hv
  fin_cases hmem
  · cases heq
    have hval : Conversions.value_from_expression (cs "$C000") = some 49152 := by
      decide
    rw [hval] at hv
    cases hv
    decide
  · cases heq
  · cases heq

/-- Claim C8.  A symbol added to the label table is found again by a lookup
with its original name (and by any query string that cleans to the same
key): lookup is case-insensitive and ignores a leading `.` and trailing
`:`/`::`.  The label's name is required to consist of the valid label
characters (letters, digits, `.`, `:`, `_`), the character set §3 of the
specification prescribes for symbol names. -/
theorem labels_lookup_finds_added_symbol (tbl : Lbl.Table) (lbl : Lbl.Label)
    (q : List Char) (hname : lbl.name ≠ [])
    (hchars : ∀ c ∈ lbl.name, Lbl.valid_chars.contains c = true)
    (hq : q = lbl.name ∨ Lbl.getitem_key q = Lbl.add_key lbl.name) :
    Lbl.getitem (Lbl.add tbl lbl) q = some lbl := by
  have hnospace : ∀ c ∈ lstrip lbl.name ['.'], c ≠ ' ' := by
    intro c hc
    have hmem : c ∈ lbl.name := mem_of_mem_dropWhile hc
    have hvc := hchars c hmem
    intro hceq
    subst hceq
    simp [Lbl.valid_chars, cs] at hvc
  have hkey : Lbl.getitem_key q = Lbl.add_key lbl.name := by
    rcases hq with rfl | h
    · unfold Lbl.getitem_key Lbl.add_key Lbl.clean_label
      rw [if_pos hname, rstrip_no_space _ hnospace]
    · exact h
  unfold Lbl.getitem Lbl.add
  rw [hkey]
  simp [Lbl.assoc]

/-- Witness for `labels_lookup_finds_added_symbol`: the label added as
`.GOTO_LABEL:` is found under `goto_label`. -/
theorem labels_lookup_finds_added_symbol_witness :
    Lbl.getitem (Lbl.add [] ⟨cs ".GOTO_LABEL:", 0x1000⟩) (cs "goto_label")
      = some ⟨cs ".GOTO_LABEL:", 0x1000⟩ :=
  labels_lookup_finds_added_symbol [] ⟨cs ".GOTO_LABEL:", 0x1000⟩
    (cs "goto_label") (by decide) (by decide) (Or.inr (by decide))

/-- Claim C9 counterexample.  `$100` does NOT parse as a 16-bit hex
expression of value 256: only expressions of overall length 5 select
`HEX16_DESCR`, so `$100` gets the 8-bit descriptor, whose 0–2 length bound
rejects the three raw characters with an `ExpressionBoundsError`. -/
theorem hex_three_nibble_bounds_error_cex :
    Expr2.process (cs "$100") = .err Expr2.ExpErr.boundsErr ∧
    Expr2.process (cs "$100")
      ≠ .ok Expr2.HEX16_DESCR Expr2.ExpressionType.HEXIDECIMAL (cs "100") := by
  decide

/-- Claim C9 (amended).  `$FF` parses as an 8-bit hex expression of value
255 and `$00FF` as a 16-bit hex expression of value 255, as claimed; but
`$100` raises `ExpressionBoundsError` instead of being classified as
16-bit with value 256. -/
theorem hex_width_classification :
    Expr2.process (cs "$FF")
      = .ok Expr2.HEX_DESCR Expr2.ExpressionType.HEXIDECIMAL (cs "FF") ∧
    Expr2.to_decimal Expr2.HEX_DESCR (cs "FF") = some 255 ∧
    Expr2.process (cs "$00FF")
      = .ok Expr2.HEX16_DESCR Expr2.ExpressionType.HEXIDECIMAL (cs "00FF") ∧
    Expr2.to_decimal Expr2.HEX16_DESCR (cs "00FF") = some 255 ∧
    Expr2.process (cs "$100") = .err Expr2.ExpErr.boundsErr := by
  decide

/-- Claim C10.  The operand `$00` parses to the numeric value 0, yet
`LD A, $00` is rejected with an operand error instead of encoding to
`[0x3E, 0x00]`: `_if_number` gates the numeric path with `if dec_val:`, so
the value 0 is treated like a failed conversion (`OPERAND_IS_NOT_NUMERIC`).
The nonzero `LD A, $01` encodes to `[0x3E, 0x01]` through the very same
path. -/
theorem ld_a_zero_rejected_as_non_numeric :
    Conversions.value_from_expression (cs "$00") = some 0 ∧
    Enc.parse Enc.LD_tree [cs "A", cs "$00"] = ⟨none, true⟩ ∧
    Enc.parse Enc.LD_tree [cs "A", cs "$01"] = ⟨some [0x3e, 0x01], false⟩ := by
  decide
